import Mathlib

/-!
Verification of the stats aggregator (src/log/stats.go) and its riemann
sink client (the second source file of the package).

The aggregator is a single serialization loop (Stats.loop) draining a FIFO
channel of closures (jobChan) and a periodic push timer.  We embed the
state touched by that loop, the jobs the public operations enqueue, and
the producer-visible channel semantics.  Go machine integers are modelled
as Int (no claim here concerns overflow) and Go float64/float32 values as
Rat (no claim here concerns rounding).
-/

namespace StatsVerify

/-- Values stored in the flat stats map (Go: map[string]interface face
values).  Incr and Decr store Go ints, Gauge, Timing and the uptime
internal store float64. -/
inductive GoValue where
  | vInt (n : Int)
  | vFloat (q : Rat)
deriving DecidableEq

/-- Leaves written into the gabs JSON tree by SetP: Incr/Decr and the
goroutine count write ints, Gauge writes a float64, Timing and uptime
write the seconds-suffixed string produced by Sprintf with a vs format
(we keep the underlying rational rather than model Go float formatting). -/
inductive JsonLeaf where
  | jInt (n : Int)
  | jFloat (q : Rat)
  | jTimeStr (q : Rat)
deriving DecidableEq

/-- A rendered JSON snapshot: the leaves of jsonRoot keyed by full dotted
path.  String rendering itself is the external gabs library and is out of
scope, so GetStats responses are modelled as this flattened tree. -/
abbrev JsonObj := List (String × JsonLeaf)

/-- Errors returned by Stats.GetStats: ErrStatsNotTracked and ErrTimedOut
from stats.go. -/
inductive StatsError where
  | notTracked
  | timedOut
deriving DecidableEq

/-- StatsConfig from stats.go. -/
structure StatsConfig where
  jobBuffer : Int
  rootPath : String
  retainInternal : Bool
  pushInterval : Int
deriving DecidableEq

/-- DefaultStatsConfig from stats.go. -/
def defaultStatsConfig : StatsConfig :=
  { jobBuffer := 100
  , rootPath := "service"
  , retainInternal := true
  , pushInterval := 1000 }

/-- Minimal model of a RiemannClient handle: the aggregator only stores
the reference, checks it against nil, and hands events to it.  The closed
flag models whether RiemannClient.Close has been invoked on it. -/
structure RiemannClientM where
  address : String
  closed : Bool
deriving DecidableEq

/-- The value of the s.jobChan field as seen by producers: a reference to
the channel, or nil after Close() overwrites it. -/
inductive ChanField where
  | chanRef
  | chanNil
deriving DecidableEq

/-- State of the underlying channel object itself. -/
inductive ChanObj where
  | openObj
  | closedObj
deriving DecidableEq

/-- The aggregator state owned by the serialization loop, plus the
producer-visible fields (jobChanField, riemann).  jsonPresent models
whether s.json is non-nil; json holds the leaves of the s.json subtree
keyed by the dotted path passed to SetP. -/
structure StatsState where
  config : StatsConfig
  jsonPresent : Bool
  json : JsonObj
  flatStats : List (String × GoValue)
  pathPfx : String
  jobChanField : ChanField
  riemann : Option RiemannClientM
deriving DecidableEq

/-- NewStats from stats.go: the json tree exists iff RetainInternal, and
the path pfx is RootPath followed by a dot when RetainInternal holds and
RootPath is non-empty. -/
def newStats (config : StatsConfig) : StatsState :=
  { config := config
  , jsonPresent := config.retainInternal
  , json := []
  , flatStats := []
  , pathPfx :=
      if config.retainInternal && decide (0 < config.rootPath.length)
      then config.rootPath ++ "." else ""
  , jobChanField := ChanField.chanRef
  , riemann := none }

/-- UseRiemann from stats.go: rejects a nil client with an error message,
otherwise stores the reference. -/
def useRiemann (s : StatsState) : Option RiemannClientM → StatsState × Option String
  | none => (s, some "client nil")
  | some c => ({ s with riemann := some c }, none)

/-- Lookup in an association list, the model of Go map indexing. -/
def lookupKV (k : String) : List (String × α) → Option α
  | [] => none
  | p :: t => if p.1 = k then some p.2 else lookupKV k t

/-- Update of an association list, the model of Go map assignment (and of
SetP on the JSON tree, keyed by the dotted path). -/
def setKV (k : String) (v : α) : List (String × α) → List (String × α)
  | [] => [(k, v)]
  | p :: t => if p.1 = k then (k, v) :: t else p :: setKV k v t

/-- The two-valued Go type assertion total, _ := s.flatStats[stat].(int):
yields the stored int, and 0 when the entry is absent or holds a value of
another dynamic type. -/
def asInt : Option GoValue → Int
  | some (GoValue.vInt n) => n
  | _ => 0

/-- Stats.updateInternals from stats.go, with the wall-clock uptime and
the goroutine count supplied as inputs of the step. -/
def updateInternals (s : StatsState) (up : Rat) (gor : Int) : StatsState :=
  { s with
    flatStats :=
      setKV "goroutines" (GoValue.vInt gor)
        (setKV "uptime" (GoValue.vFloat up) s.flatStats)
  , json :=
      if s.jsonPresent then
        setKV "goroutines" (JsonLeaf.jInt gor)
          (setKV "uptime" (JsonLeaf.jTimeStr up) s.json)
      else s.json }

/-- The TTL written into every riemann event by stats.go:
float32(s.config.PushInterval*2) / 1000, modelled exactly in Rat. -/
def ttlOf (config : StatsConfig) : Rat :=
  ((config.pushInterval * 2 : Int) : Rat) / 1000

/-- RiemannEvent as constructed by stats.go.  The revision of the riemann
client file in the sources predates the TTL field used by stats.go, so
that field is modelled from the spec event shape (timeToLive, float
seconds); State and Description default to the Go zero string. -/
structure RiemannEvent where
  service : String
  state : String
  description : String
  metric : GoValue
  tags : List String
  ttl : Rat
deriving DecidableEq

/-- The event literal built by Stats.Timing, Stats.Gauge and Stats.loop
for a stat name and value. -/
def mkStatEvent (s : StatsState) (name : String) (value : GoValue) : RiemannEvent :=
  { service := s.pathPfx ++ name
  , state := ""
  , description := ""
  , metric := value
  , tags := ["stat"]
  , ttl := ttlOf s.config }

/-- The closures enqueued on jobChan by the public operations.  The
snapshot job (the closure enqueued by GetStats) carries the uptime and
goroutine readings it will take when it executes. -/
inductive Job where
  | incr (stat : String) (value : Int)
  | decr (stat : String) (value : Int)
  | timing (stat : String) (delta : Rat)
  | gauge (stat : String) (value : Rat)
  | snapshot (up : Rat) (gor : Int)
deriving DecidableEq

/-- Calls made by the loop on the riemann client: SendEvent (single) and
SendEvents (batch). -/
inductive OutAction where
  | sendEvent (e : RiemannEvent)
  | sendEvents (es : List RiemannEvent)
deriving DecidableEq

/-- Flattening of the jsonRoot tree returned by GetStats: every leaf of
s.json sits under the path pfx (RootPath plus a dot, or empty). -/
def jsonRootOf (s : StatsState) : JsonObj :=
  s.json.map (fun p => (s.pathPfx ++ p.1, p.2))

/-- Execution of one enqueued closure by the serialization loop,
transcribed from the closure bodies in Incr, Decr, Timing, Gauge and
GetStats in stats.go.  Returns the new state, the riemann calls made, and
the response delivered for a snapshot job. -/
def applyJob (s : StatsState) : Job → StatsState × List OutAction × Option (Except StatsError JsonObj)
  | Job.incr stat value =>
      let total := asInt (lookupKV stat s.flatStats) + value
      ( { s with
          flatStats := setKV stat (GoValue.vInt total) s.flatStats
        , json := if s.jsonPresent then setKV stat (JsonLeaf.jInt total) s.json else s.json }
      , [], none )
  | Job.decr stat value =>
      let total := asInt (lookupKV stat s.flatStats) - value
      ( { s with
          flatStats := setKV stat (GoValue.vInt total) s.flatStats
        , json := if s.jsonPresent then setKV stat (JsonLeaf.jInt total) s.json else s.json }
      , [], none )
  | Job.timing stat delta =>
      ( { s with
          flatStats := setKV stat (GoValue.vFloat delta) s.flatStats
        , json := if s.jsonPresent then setKV stat (JsonLeaf.jTimeStr delta) s.json else s.json }
      , if s.riemann.isSome then [OutAction.sendEvent (mkStatEvent s stat (GoValue.vFloat delta))] else []
      , none )
  | Job.gauge stat value =>
      ( { s with
          flatStats := setKV stat (GoValue.vFloat value) s.flatStats
        , json := if s.jsonPresent then setKV stat (JsonLeaf.jFloat value) s.json else s.json }
      , if s.riemann.isSome then [OutAction.sendEvent (mkStatEvent s stat (GoValue.vFloat value))] else []
      , none )
  | Job.snapshot up gor =>
      if s.jsonPresent then
        let s2 := updateInternals s up gor
        (s2, [], some (Except.ok (jsonRootOf s2)))
      else
        (s, [], some (Except.error StatsError.notTracked))

/-- The loop draining a list of queued jobs in FIFO arrival order,
collecting the riemann calls and the snapshot responses. -/
def runJobs : StatsState → List Job → StatsState × List OutAction × List (Except StatsError JsonObj)
  | s, [] => (s, [], [])
  | s, j :: t =>
      let r := applyJob s j
      let rest := runJobs r.1 t
      (rest.1, r.2.1 ++ rest.2.1, r.2.2.toList ++ rest.2.2)

/-- The timer branch of Stats.loop: recompute internals, then, when a
riemann client is attached, build one event per tracked flat stat and
submit them as a single SendEvents batch. -/
def timerFire (s : StatsState) (up : Rat) (gor : Int) : StatsState × List OutAction :=
  let s2 := updateInternals s up gor
  if s2.riemann.isSome then
    (s2, [OutAction.sendEvents (s2.flatStats.map (fun p => mkStatEvent s2 p.1 p.2))])
  else
    (s2, [])

/-- The two jobs a GetStats call enqueues, in FIFO order: first the
s.Incr of the stats.requests counter, then the snapshot closure. -/
def getStatsJobs (up : Rat) (gor : Int) : List Job :=
  [Job.incr "stats.requests" 1, Job.snapshot up gor]

/-- The value returned to the GetStats caller.  The answered flag is the
timing oracle of the final select: true when a reply from the loop is
received before the time.After timeout case fires (in which case the loop
has applied both enqueued jobs), false when the timeout case wins. -/
def getStatsResult (s : StatsState) (answered : Bool) (up : Rat) (gor : Int) :
    Except StatsError JsonObj :=
  if answered then
    match (runJobs s (getStatsJobs up gor)).2.2 with
    | r :: _ => r
    | [] => Except.error StatsError.timedOut
  else Except.error StatsError.timedOut

/-- Possible outcomes of a Go channel send statement. -/
inductive SendOutcome where
  | delivered
  | defaulted
  | panicked
  | blocksForever
deriving DecidableEq

/-- Whether a send outcome lets the sending call return to its caller. -/
def outcomeReturns : SendOutcome → Bool
  | SendOutcome.delivered => true
  | SendOutcome.defaulted => true
  | SendOutcome.panicked => false
  | SendOutcome.blocksForever => false

/-- A send wrapped in select with a default branch (the responseChan send
in the GetStats snapshot closure): delivers when the buffer has room,
otherwise takes the default branch; it can never block or panic. -/
def sendSelectDefault (buf : List α) (cap : Nat) (x : α) : List α × SendOutcome :=
  if buf.length < cap then (buf ++ [x], SendOutcome.delivered)
  else (buf, SendOutcome.defaulted)

/-- A plain send on a buffered channel whose receiver has gone away (the
errorChan send after the GetStats caller timed out): delivers while the
buffer has room, blocks forever once it is full. -/
def sendBuffered (buf : List α) (cap : Nat) (x : α) : List α × SendOutcome :=
  if buf.length < cap then (buf ++ [x], SendOutcome.delivered)
  else (buf, SendOutcome.blocksForever)

/-- The GetStats snapshot closure run with its two fresh capacity-one
reply channels made explicit, transcribed from stats.go: when the json
tree exists it refreshes internals and sends the rendered root on
responseChan under select/default, otherwise it sends ErrStatsNotTracked
on errorChan.  Returns state, both buffers and the send outcome. -/
def snapshotJobChan (s : StatsState) (up : Rat) (gor : Int)
    (respBuf : List JsonObj) (errBuf : List StatsError) :
    StatsState × List JsonObj × List StatsError × SendOutcome :=
  if s.jsonPresent then
    let s2 := updateInternals s up gor
    let r := sendSelectDefault respBuf 1 (jsonRootOf s2)
    (s2, r.1, errBuf, r.2)
  else
    let r := sendBuffered errBuf 1 StatsError.notTracked
    (s, respBuf, r.1, r.2)

/-- Producer-side view of one aggregator: its state plus the state of the
underlying request channel object. -/
structure StatsWorld where
  st : StatsState
  chanObj : ChanObj
deriving DecidableEq

/-- Close calls observable from Stats.Close: closing the request channel
and closing the riemann client. -/
inductive CloseAction where
  | closeJobChan
  | closeSinkClient
deriving DecidableEq

/-- Stats.Close from stats.go: jChan := s.jobChan; s.jobChan = nil;
close(jChan) — one close of the request channel — then s.riemannClient =
nil, with no call to RiemannClient.Close. -/
def closeStats (w : StatsWorld) : StatsWorld × List CloseAction :=
  ( { st := { w.st with jobChanField := ChanField.chanNil, riemann := none }
    , chanObj := ChanObj.closedObj }
  , [CloseAction.closeJobChan] )

/-- Effect of a list of close actions on a riemann client object: only
closeSinkClient touches it. -/
def applySinkActions (c : RiemannClientM) : List CloseAction → RiemannClientM
  | [] => c
  | CloseAction.closeSinkClient :: t => applySinkActions { c with closed := true } t
  | CloseAction.closeJobChan :: t => applySinkActions c t

/-- Go semantics of the unguarded send s.jobChan <- f performed by Incr,
Decr, Timing, Gauge and GetStats: a send through a nil field blocks
forever, a send on a closed channel panics, a send on the open channel
delivers the job. -/
def sendJobOutcome : ChanField → ChanObj → SendOutcome
  | ChanField.chanNil, _ => SendOutcome.blocksForever
  | ChanField.chanRef, ChanObj.closedObj => SendOutcome.panicked
  | ChanField.chanRef, ChanObj.openObj => SendOutcome.delivered

/-- Outcome of the send performed by an Incr or Decr call against a given
world. -/
def mutationSendOutcome (w : StatsWorld) : SendOutcome :=
  sendJobOutcome w.st.jobChanField w.chanObj

/-- The job actually placed on the queue by a mutation call: present only
when the send delivers; a blocked or panicking send enqueues nothing, so
the metric store can never be affected by it. -/
def enqueuedJob (w : StatsWorld) (j : Job) : Option Job :=
  if sendJobOutcome w.st.jobChanField w.chanObj = SendOutcome.delivered
  then some j else none

/-! Helper lemmas about the association-list store. -/

theorem lookupKV_setKV_self (k : String) (v : α) (l : List (String × α)) :
    lookupKV k (setKV k v l) = some v := by
  induction l with
  | nil => simp [setKV, lookupKV]
  | cons p t ih =>
    by_cases h : p.1 = k
    · simp [setKV, h, lookupKV]
    · simp [setKV, h, lookupKV, ih]

theorem lookupKV_setKV_other (k k' : String) (v : α) (l : List (String × α))
    (h : k' ≠ k) : lookupKV k (setKV k' v l) = lookupKV k l := by
  induction l with
  | nil => simp [setKV, lookupKV, h]
  | cons p t ih =>
    by_cases hp : p.1 = k'
    · simp [setKV, hp, lookupKV, h, ih]
    · simp only [setKV, hp, if_false, lookupKV, ih]

theorem applyJob_jsonPresent (s : StatsState) (j : Job) :
    (applyJob s j).1.jsonPresent = s.jsonPresent := by
  cases j
  case snapshot up gor =>
    simp only [applyJob]
    split <;> rfl
  all_goals rfl

theorem runJobs_jsonPresent (js : List Job) :
    ∀ s : StatsState, (runJobs s js).1.jsonPresent = s.jsonPresent := by
  induction js with
  | nil => intro s; rfl
  | cons j t ih =>
    intro s
    simp only [runJobs]
    rw [ih]
    exact applyJob_jsonPresent s j

/-! Claim C1: counters accumulate the signed sum of the applied deltas. -/

/-- Contribution of one request to a counter: positive for Incr, negative
for Decr. -/
def signedDelta (p : Bool × Int) : Int := if p.1 then p.2 else -p.2

/-- Signed sum of a sequence of Incr and Decr deltas. -/
def signedSum (ops : List (Bool × Int)) : Int := (ops.map signedDelta).sum

/-- A sequence of Incr (true) and Decr (false) requests on one name, in
arrival order. -/
def counterOps (name : String) (ops : List (Bool × Int)) : List Job :=
  ops.map (fun p => if p.1 then Job.incr name p.2 else Job.decr name p.2)

theorem counter_sum_aux (name : String) (ops : List (Bool × Int)) :
    ∀ (s : StatsState) (k : Int),
      lookupKV name s.flatStats = some (GoValue.vInt k) →
      lookupKV name (runJobs s (counterOps name ops)).1.flatStats
        = some (GoValue.vInt (k + signedSum ops)) := by
  induction ops with
  | nil =>
    intro s k h
    simpa [counterOps, runJobs, signedSum, signedDelta] using h
  | cons p t ih =>
    intro s k h
    have hAs : asInt (lookupKV name s.flatStats) = k := by rw [h]; rfl
    cases hb : p.1 with
    | true =>
      have hjobs : counterOps name (p :: t) = Job.incr name p.2 :: counterOps name t := by
        simp [counterOps, hb]
      have hstep : lookupKV name ((applyJob s (Job.incr name p.2)).1.flatStats)
          = some (GoValue.vInt (k + p.2)) := by
        simp [applyJob, hAs, lookupKV_setKV_self]
      rw [hjobs]
      simp only [runJobs]
      rw [ih _ _ hstep]
      have hsum : k + p.2 + signedSum t = k + signedSum (p :: t) := by
        simp [signedSum, signedDelta, hb]
        ring
      rw [hsum]
    | false =>
      have hjobs : counterOps name (p :: t) = Job.decr name p.2 :: counterOps name t := by
        simp [counterOps, hb]
      have hstep : lookupKV name ((applyJob s (Job.decr name p.2)).1.flatStats)
          = some (GoValue.vInt (k - p.2)) := by
        simp [applyJob, hAs, lookupKV_setKV_self]
      rw [hjobs]
      simp only [runJobs]
      rw [ih _ _ hstep]
      have hsum : k - p.2 + signedSum t = k + signedSum (p :: t) := by
        simp [signedSum, signedDelta, hb]
        ring
      rw [hsum]

/-- C1: for every sequence of Incr and Decr requests on the same metric
name with deltas d1..dn, applied by the serialization loop in arrival
order, the final counter value equals the initial value (0 if the name
was absent, via the int type assertion) plus the signed sum of the deltas
in that order — no update is lost. -/
theorem C1_counter_no_lost_update (s : StatsState) (name : String)
    (ops : List (Bool × Int)) (h : ops ≠ []) :
    lookupKV name (runJobs s (counterOps name ops)).1.flatStats
      = some (GoValue.vInt (asInt (lookupKV name s.flatStats) + signedSum ops)) := by
  cases ops with
  | nil => exact absurd rfl h
  | cons p t =>
    cases hb : p.1 with
    | true =>
      have hjobs : counterOps name (p :: t) = Job.incr name p.2 :: counterOps name t := by
        simp [counterOps, hb]
      have hstep : lookupKV name ((applyJob s (Job.incr name p.2)).1.flatStats)
          = some (GoValue.vInt (asInt (lookupKV name s.flatStats) + p.2)) := by
        simp [applyJob, lookupKV_setKV_self]
      rw [hjobs]
      simp only [runJobs]
      rw [counter_sum_aux name t _ _ hstep]
      have hsum : asInt (lookupKV name s.flatStats) + p.2 + signedSum t
          = asInt (lookupKV name s.flatStats) + signedSum (p :: t) := by
        simp [signedSum, signedDelta, hb]
        ring
      rw [hsum]
    | false =>
      have hjobs : counterOps name (p :: t) = Job.decr name p.2 :: counterOps name t := by
        simp [counterOps, hb]
      have hstep : lookupKV name ((applyJob s (Job.decr name p.2)).1.flatStats)
          = some (GoValue.vInt (asInt (lookupKV name s.flatStats) - p.2)) := by
        simp [applyJob, lookupKV_setKV_self]
      rw [hjobs]
      simp only [runJobs]
      rw [counter_sum_aux name t _ _ hstep]
      have hsum : asInt (lookupKV name s.flatStats) - p.2 + signedSum t
          = asInt (lookupKV name s.flatStats) + signedSum (p :: t) := by
        simp [signedSum, signedDelta, hb]
        ring
      rw [hsum]

/-- Witness for C1 at a concrete run: Incr 3, Decr 1, Incr 5 on a fresh
aggregator leaves the counter at 0 + 3 - 1 + 5. -/
theorem C1_counter_no_lost_update_witness :
    ([((true : Bool), (3 : Int)), (false, 1), (true, 5)] ≠ ([] : List (Bool × Int))) ∧
    lookupKV "requests"
        (runJobs (newStats defaultStatsConfig)
          (counterOps "requests" [(true, 3), (false, 1), (true, 5)])).1.flatStats
      = some (GoValue.vInt
          (asInt (lookupKV "requests" (newStats defaultStatsConfig).flatStats)
            + signedSum [(true, 3), (false, 1), (true, 5)])) :=
  ⟨by decide, C1_counter_no_lost_update (newStats defaultStatsConfig) "requests"
    [(true, 3), (false, 1), (true, 5)] (by decide)⟩

/-! Claim C2: behaviour of Incr and Decr after Close. -/

/-- A freshly constructed aggregator world with its request channel open. -/
def worldEx : StatsWorld :=
  { st := newStats defaultStatsConfig, chanObj := ChanObj.openObj }

/-- Counterexample for C2 as stated: after Close() the jobChan field is
nil, so the unguarded send inside Incr blocks the calling goroutine
forever — the call never returns, contradicting the claim that it is
silently dropped and returns without blocking. -/
theorem C2_close_then_incr_counterexample :
    outcomeReturns (mutationSendOutcome (closeStats worldEx).1) = false ∧
    mutationSendOutcome (closeStats worldEx).1 = SendOutcome.blocksForever := by
  constructor <;> rfl

/-- C2 amended: after Close() has been called, a subsequent Incr or Decr
has no effect on the metric store (nothing is ever enqueued) and does not
panic with a send on a closed channel, but instead of returning it blocks
the caller forever on the nil jobChan field. -/
theorem C2_close_then_incr_blocks (w : StatsWorld) (stat : String) (d : Int) :
    mutationSendOutcome (closeStats w).1 = SendOutcome.blocksForever ∧
    mutationSendOutcome (closeStats w).1 ≠ SendOutcome.panicked ∧
    enqueuedJob (closeStats w).1 (Job.incr stat d) = none ∧
    enqueuedJob (closeStats w).1 (Job.decr stat d) = none := by
  refine ⟨rfl, ?_, rfl, rfl⟩
  intro h
  exact SendOutcome.noConfusion h

/-! Claim C3: Incr and Decr coerce an absent or kind-mismatched previous
value to zero and never crash on the mismatch (the two-valued type
assertion in the closure body is total). -/

/-- C3: when the stored value under the name is absent or is not an int
(for example it was last written by Gauge or Timing), an Incr stores
exactly 0 + delta and a Decr stores exactly 0 - delta. -/
theorem C3_mismatch_coerced_to_zero (s : StatsState) (stat : String) (d : Int)
    (h : ∀ n : Int, lookupKV stat s.flatStats ≠ some (GoValue.vInt n)) :
    lookupKV stat ((applyJob s (Job.incr stat d)).1.flatStats)
        = some (GoValue.vInt (0 + d)) ∧
    lookupKV stat ((applyJob s (Job.decr stat d)).1.flatStats)
        = some (GoValue.vInt (0 - d)) := by
  have hz : asInt (lookupKV stat s.flatStats) = 0 := by
    cases hv : lookupKV stat s.flatStats with
    | none => rfl
    | some v =>
      cases v with
      | vInt n => exact absurd hv (h n)
      | vFloat q => rfl
  constructor <;> simp [applyJob, hz, lookupKV_setKV_self]

/-- A state whose entry under the name g was last written by Gauge, hence
holds a float64. -/
def gaugeStateEx : StatsState :=
  (applyJob (newStats defaultStatsConfig) (Job.gauge "g" 42)).1

/-- Witness for C3: incrementing the gauge-valued entry g by 5 coerces
the float to 0 and stores 5; decrementing stores -5. -/
theorem C3_mismatch_coerced_to_zero_witness :
    (∀ n : Int, lookupKV "g" gaugeStateEx.flatStats ≠ some (GoValue.vInt n)) ∧
    (lookupKV "g" ((applyJob gaugeStateEx (Job.incr "g" 5)).1.flatStats)
        = some (GoValue.vInt (0 + 5)) ∧
     lookupKV "g" ((applyJob gaugeStateEx (Job.decr "g" 5)).1.flatStats)
        = some (GoValue.vInt (0 - 5))) := by
  have hval : lookupKV "g" gaugeStateEx.flatStats = some (GoValue.vFloat 42) := by decide
  have hyp : ∀ n : Int, lookupKV "g" gaugeStateEx.flatStats ≠ some (GoValue.vInt n) := by
    intro n hn
    rw [hval] at hn
    simp at hn
  exact ⟨hyp, C3_mismatch_coerced_to_zero gaugeStateEx "g" 5 hyp⟩

/-! Claim C4: GetStats with internal retention disabled. -/

/-- The default configuration with internal snapshot retention disabled. -/
def cfgNoRetain : StatsConfig := { defaultStatsConfig with retainInternal := false }

/-- Counterexample for C4 as stated: on an aggregator built with
retention disabled, a GetStats call whose timeout elapses before the loop
reply (the answered oracle is false, e.g. a 0 timeout against a busy
loop) returns ErrTimedOut, not the not-tracked error. -/
theorem C4_not_tracked_counterexample :
    getStatsResult (newStats cfgNoRetain) false 1 1 = Except.error StatsError.timedOut ∧
    (Except.error StatsError.timedOut : Except StatsError JsonObj)
      ≠ Except.error StatsError.notTracked := by
  constructor
  · rfl
  · intro h
    simp at h

/-- C4 amended: on every aggregator constructed with retention disabled,
after any sequence of processed requests, every GetStats call returns an
error and never a JSON body: the not-tracked error when the loop reply
wins the select, the timed-out error when the timeout elapses first. -/
theorem C4_not_tracked_or_timeout (cfg : StatsConfig) (h : cfg.retainInternal = false)
    (js : List Job) (answered : Bool) (up : Rat) (gor : Int) :
    getStatsResult (runJobs (newStats cfg) js).1 answered up gor
      = Except.error (if answered then StatsError.notTracked else StatsError.timedOut) := by
  cases answered with
  | false => rfl
  | true =>
    have hs : (runJobs (newStats cfg) js).1.jsonPresent = false := by
      rw [runJobs_jsonPresent]
      simp [newStats, h]
    have h1 : (applyJob (runJobs (newStats cfg) js).1
        (Job.incr "stats.requests" 1)).2.2 = (none : Option (Except StatsError JsonObj)) := rfl
    have h2 : (applyJob (applyJob (runJobs (newStats cfg) js).1
          (Job.incr "stats.requests" 1)).1 (Job.snapshot up gor)).2.2
        = some (Except.error StatsError.notTracked) := by
      simp only [applyJob]
      rw [if_neg]
      simp [hs]
    simp [getStatsResult, getStatsJobs, runJobs, h1, h2]

/-- Witness for C4 amended: a fresh no-retention aggregator with no prior
requests answers a GetStats whose reply wins the select with the
not-tracked error. -/
theorem C4_not_tracked_or_timeout_witness :
    cfgNoRetain.retainInternal = false ∧
    getStatsResult (runJobs (newStats cfgNoRetain) []).1 true 1 1
      = Except.error (if true then StatsError.notTracked else StatsError.timedOut) :=
  ⟨rfl, C4_not_tracked_or_timeout cfgNoRetain rfl [] true 1 1⟩

/-! Claim C5: the timeout path of GetStats. -/

/-- C5: when the caller timeout elapses before the loop answers, GetStats
returns the timed-out error rather than blocking, and when the loop later
runs the snapshot closure against the fresh capacity-one reply channels
the send takes the buffered or default branch immediately — the result is
parked in the abandoned buffer (discarded) and the loop is never
blocked. -/
theorem C5_timeout_returns_and_discards (s : StatsState) (up : Rat) (gor : Int) :
    getStatsResult s false up gor = Except.error StatsError.timedOut ∧
    (snapshotJobChan s up gor [] []).2.2.2 = SendOutcome.delivered ∧
    (snapshotJobChan s up gor [] []).2.2.2 ≠ SendOutcome.blocksForever := by
  refine ⟨rfl, ?_, ?_⟩ <;>
    cases hj : s.jsonPresent <;>
      simp [snapshotJobChan, sendSelectDefault, sendBuffered, hj]

/-! Claim C6: the timer flush emits one tagged, TTL-carrying event per
tracked metric as a single batch. -/

/-- The batch built by the timer branch of Stats.loop: one event per
entry of the flat stats map. -/
def flushEvents (s2 : StatsState) : List RiemannEvent :=
  s2.flatStats.map (fun p => mkStatEvent s2 p.1 p.2)

/-- C6: on a timer fire with a riemann client attached, the loop first
refreshes the internals and then performs exactly one SendEvents batch
call holding one event per tracked name/value pair, each event carrying
the path pfx plus the metric name as its service, the single tag stat,
and a TTL of twice the push interval in seconds. -/
theorem C6_flush_batch (s : StatsState) (up : Rat) (gor : Int)
    (h : s.riemann.isSome = true) :
    timerFire s up gor
      = (updateInternals s up gor,
         [OutAction.sendEvents (flushEvents (updateInternals s up gor))]) ∧
    (flushEvents (updateInternals s up gor)).length
      = (updateInternals s up gor).flatStats.length ∧
    (∀ e ∈ flushEvents (updateInternals s up gor),
      e.tags = ["stat"] ∧
      e.ttl = 2 * ((s.config.pushInterval : Rat) / 1000) ∧
      ∃ p ∈ (updateInternals s up gor).flatStats,
        e.service = s.pathPfx ++ p.1 ∧ e.metric = p.2) := by
  have hr : (updateInternals s up gor).riemann.isSome = true := h
  refine ⟨?_, ?_, ?_⟩
  · simp [timerFire, hr, flushEvents]
  · simp [flushEvents]
  · intro e he
    simp only [flushEvents, List.mem_map] at he
    obtain ⟨p, hp, rfl⟩ := he
    refine ⟨rfl, ?_, p, hp, rfl, rfl⟩
    show ttlOf s.config = 2 * ((s.config.pushInterval : Rat) / 1000)
    unfold ttlOf
    push_cast
    ring

/-- A riemann client handle used in witnesses. -/
def clientEx : RiemannClientM := { address := "localhost:5555", closed := false }

/-- An aggregator that has processed Incr requests and then had a riemann
client attached through UseRiemann. -/
def attachedStateEx : StatsState :=
  (useRiemann (runJobs (newStats defaultStatsConfig) [Job.incr "requests" 3]).1
    (some clientEx)).1

/-- Witness for C6 at a concrete attached aggregator and timer fire. -/
theorem C6_flush_batch_witness :
    attachedStateEx.riemann.isSome = true ∧
    (timerFire attachedStateEx 1 1
      = (updateInternals attachedStateEx 1 1,
         [OutAction.sendEvents (flushEvents (updateInternals attachedStateEx 1 1))]) ∧
    (flushEvents (updateInternals attachedStateEx 1 1)).length
      = (updateInternals attachedStateEx 1 1).flatStats.length ∧
    (∀ e ∈ flushEvents (updateInternals attachedStateEx 1 1),
      e.tags = ["stat"] ∧
      e.ttl = 2 * ((attachedStateEx.config.pushInterval : Rat) / 1000) ∧
      ∃ p ∈ (updateInternals attachedStateEx 1 1).flatStats,
        e.service = attachedStateEx.pathPfx ++ p.1 ∧ e.metric = p.2)) :=
  ⟨rfl, C6_flush_batch attachedStateEx 1 1 rfl⟩

/-! Claim C7: Close closes the request channel exactly once, detaches the
riemann reference, and never closes the riemann client itself. -/

/-- C7: a Close() call performs exactly one close of the request channel
and no close of the riemann client; it nils the sink reference, and the
client object itself is untouched by the actions Close performs, so other
holders can keep using it. -/
theorem C7_close_detaches_sink (w : StatsWorld) :
    (closeStats w).2 = [CloseAction.closeJobChan] ∧
    ((closeStats w).2).count CloseAction.closeJobChan = 1 ∧
    CloseAction.closeSinkClient ∉ (closeStats w).2 ∧
    (closeStats w).1.st.riemann = none ∧
    (closeStats w).1.st.jobChanField = ChanField.chanNil ∧
    (closeStats w).1.chanObj = ChanObj.closedObj ∧
    ∀ c : RiemannClientM, applySinkActions c (closeStats w).2 = c := by
  refine ⟨rfl, by simp [closeStats], by simp [closeStats], rfl, rfl, rfl, ?_⟩
  intro c
  rfl

/-! Claim C8: side effects of GetStats. -/

theorem runJobs_getStatsJobs (s : StatsState) (up : Rat) (gor : Int)
    (h : s.jsonPresent = true) :
    runJobs s (getStatsJobs up gor)
      = (updateInternals (applyJob s (Job.incr "stats.requests" 1)).1 up gor, [],
         [Except.ok (jsonRootOf
            (updateInternals (applyJob s (Job.incr "stats.requests" 1)).1 up gor))]) := by
  simp [getStatsJobs, runJobs, applyJob, h]

/-- C8: every GetStats call enqueues an Incr of the stats.requests
counter ahead of the snapshot closure, so the counter rises by one, and
the snapshot response is rendered from the state produced by
updateInternals — the refreshed uptime and goroutine readings are in both
the flat map and the JSON tree the response is rendered from. -/
theorem C8_getstats_side_effects (s : StatsState) (up : Rat) (gor : Int)
    (h : s.jsonPresent = true) :
    lookupKV "stats.requests" (runJobs s (getStatsJobs up gor)).1.flatStats
      = some (GoValue.vInt (asInt (lookupKV "stats.requests" s.flatStats) + 1)) ∧
    (runJobs s (getStatsJobs up gor)).2.2
      = [Except.ok (jsonRootOf
          (updateInternals (applyJob s (Job.incr "stats.requests" 1)).1 up gor))] ∧
    lookupKV "uptime"
        (updateInternals (applyJob s (Job.incr "stats.requests" 1)).1 up gor).flatStats
      = some (GoValue.vFloat up) ∧
    lookupKV "goroutines"
        (updateInternals (applyJob s (Job.incr "stats.requests" 1)).1 up gor).flatStats
      = some (GoValue.vInt gor) ∧
    lookupKV "uptime"
        (updateInternals (applyJob s (Job.incr "stats.requests" 1)).1 up gor).json
      = some (JsonLeaf.jTimeStr up) ∧
    lookupKV "goroutines"
        (updateInternals (applyJob s (Job.incr "stats.requests" 1)).1 up gor).json
      = some (JsonLeaf.jInt gor) := by
  have hrun := runJobs_getStatsJobs s up gor h
  have hs1 : (applyJob s (Job.incr "stats.requests" 1)).1.jsonPresent = true := by
    rw [applyJob_jsonPresent]
    exact h
  refine ⟨?_, ?_, ?_, ?_, ?_, ?_⟩
  · rw [hrun]
    show lookupKV "stats.requests"
        (updateInternals (applyJob s (Job.incr "stats.requests" 1)).1 up gor).flatStats = _
    simp only [updateInternals]
    rw [lookupKV_setKV_other _ _ _ _ (by decide), lookupKV_setKV_other _ _ _ _ (by decide)]
    simp [applyJob, lookupKV_setKV_self]
  · rw [hrun]
  · simp only [updateInternals]
    rw [lookupKV_setKV_other _ _ _ _ (by decide), lookupKV_setKV_self]
  · simp only [updateInternals]
    rw [lookupKV_setKV_self]
  · simp only [updateInternals]
    rw [if_pos hs1]
    rw [lookupKV_setKV_other _ _ _ _ (by decide), lookupKV_setKV_self]
  · simp only [updateInternals]
    rw [if_pos hs1]
    rw [lookupKV_setKV_self]

/-- Witness for C8 on a fresh default aggregator (retention on), with an
uptime reading of 7 seconds and 5 goroutines. -/
theorem C8_getstats_side_effects_witness :
    (newStats defaultStatsConfig).jsonPresent = true ∧
    (lookupKV "stats.requests"
        (runJobs (newStats defaultStatsConfig) (getStatsJobs 7 5)).1.flatStats
      = some (GoValue.vInt
          (asInt (lookupKV "stats.requests" (newStats defaultStatsConfig).flatStats) + 1)) ∧
    (runJobs (newStats defaultStatsConfig) (getStatsJobs 7 5)).2.2
      = [Except.ok (jsonRootOf
          (updateInternals
            (applyJob (newStats defaultStatsConfig) (Job.incr "stats.requests" 1)).1 7 5))] ∧
    lookupKV "uptime"
        (updateInternals
          (applyJob (newStats defaultStatsConfig) (Job.incr "stats.requests" 1)).1 7 5).flatStats
      = some (GoValue.vFloat 7) ∧
    lookupKV "goroutines"
        (updateInternals
          (applyJob (newStats defaultStatsConfig) (Job.incr "stats.requests" 1)).1 7 5).flatStats
      = some (GoValue.vInt 5) ∧
    lookupKV "uptime"
        (updateInternals
          (applyJob (newStats defaultStatsConfig) (Job.incr "stats.requests" 1)).1 7 5).json
      = some (JsonLeaf.jTimeStr 7) ∧
    lookupKV "goroutines"
        (updateInternals
          (applyJob (newStats defaultStatsConfig) (Job.incr "stats.requests" 1)).1 7 5).json
      = some (JsonLeaf.jInt 5)) :=
  ⟨rfl, C8_getstats_side_effects (newStats defaultStatsConfig) 7 5 rfl⟩

/-! Claim C10: Timing and Gauge emit one immediate per-call event when a
client is attached; Incr and Decr never do. -/

/-- C10: with a riemann client attached, the closure run by the loop for
a Gauge or Timing call performs exactly one SendEvent call carrying the
path pfx plus the name, the tag stat and a TTL of twice the push interval
in seconds, while the closures for Incr and Decr perform no riemann calls
at all. -/
theorem C10_per_call_events (s : StatsState) (stat : String) (v d : Rat) (n : Int)
    (h : s.riemann.isSome = true) :
    (applyJob s (Job.gauge stat v)).2.1
      = [OutAction.sendEvent (mkStatEvent s stat (GoValue.vFloat v))] ∧
    (applyJob s (Job.timing stat d)).2.1
      = [OutAction.sendEvent (mkStatEvent s stat (GoValue.vFloat d))] ∧
    (mkStatEvent s stat (GoValue.vFloat v)).service = s.pathPfx ++ stat ∧
    (mkStatEvent s stat (GoValue.vFloat v)).tags = ["stat"] ∧
    (mkStatEvent s stat (GoValue.vFloat v)).ttl
      = 2 * ((s.config.pushInterval : Rat) / 1000) ∧
    (applyJob s (Job.incr stat n)).2.1 = [] ∧
    (applyJob s (Job.decr stat n)).2.1 = [] := by
  refine ⟨?_, ?_, rfl, rfl, ?_, rfl, rfl⟩
  · simp [applyJob, h]
  · simp [applyJob, h]
  · show ttlOf s.config = 2 * ((s.config.pushInterval : Rat) / 1000)
    unfold ttlOf
    push_cast
    ring

/-- Witness for C10 on the attached aggregator, with a gauge write of
42.5, a timing write of 3 and counter deltas of 2. -/
theorem C10_per_call_events_witness :
    attachedStateEx.riemann.isSome = true ∧
    ((applyJob attachedStateEx (Job.gauge "depth" (85 / 2))).2.1
      = [OutAction.sendEvent (mkStatEvent attachedStateEx "depth" (GoValue.vFloat (85 / 2)))] ∧
    (applyJob attachedStateEx (Job.timing "depth" 3)).2.1
      = [OutAction.sendEvent (mkStatEvent attachedStateEx "depth" (GoValue.vFloat 3))] ∧
    (mkStatEvent attachedStateEx "depth" (GoValue.vFloat (85 / 2))).service
      = attachedStateEx.pathPfx ++ "depth" ∧
    (mkStatEvent attachedStateEx "depth" (GoValue.vFloat (85 / 2))).tags = ["stat"] ∧
    (mkStatEvent attachedStateEx "depth" (GoValue.vFloat (85 / 2))).ttl
      = 2 * ((attachedStateEx.config.pushInterval : Rat) / 1000) ∧
    (applyJob attachedStateEx (Job.incr "depth" 2)).2.1 = [] ∧
    (applyJob attachedStateEx (Job.decr "depth" 2)).2.1 = []) :=
  ⟨rfl, C10_per_call_events attachedStateEx "depth" (85 / 2) 3 2 rfl⟩

end StatsVerify
